import Mathlib

/-!
Verification development for the worktree CLI (github.com/liamawhite/worktree).

The Go sources are shallowly embedded: pure functions become Lean functions,
and functions with external effects (filesystem, git subprocesses, go-git
library calls) become functions that take an explicit environment recording
the outcome of each external call, and return the list of external actions
performed (in order), the final process working directory where relevant, and
the error result.

Filesystem paths are modelled as lists of components: `filepath.Join root
name` appends one component and `filepath.Base` takes the last one, which is
exactly how the sources use them (directory-entry names never contain a
separator).
-/

namespace Worktree

abbrev Path := List String

/-- `filepath.Join p name` for a single extra component. -/
def fjoin (p : Path) (name : String) : Path := p ++ [name]

/-- `filepath.Base`: the last path component, `"."` for an empty path. -/
def fbase (p : Path) : String := p.getLastD "."

/-- Rendering a path back to a string with `/` separators. -/
def pathStr (p : Path) : String := String.intercalate "/" p

/-! ## Go strings.Split with a one-character separator

Embedded as a structural recursion over the character list so the kernel can
evaluate it.  `Split("", sep) = [""]`, `Split("a/b", "/") = ["a", "b"]`, and
empty segments are kept, exactly as in Go. -/

def splitChars (sep : Char) : List Char → List (List Char)
  | [] => [[]]
  | c :: cs =>
    match splitChars sep cs with
    | [] => if c = sep then [[], []] else [[c]]
    | r :: rs => if c = sep then [] :: r :: rs else (c :: r) :: rs

/-- Go `strings.Split(s, sep)` for a one-character separator `sep`. -/
def goSplit (s : String) (sep : Char) : List String :=
  (splitChars sep s.data).map List.asString

/-! ## Go strings.HasPrefix, embedded over the character lists. -/

def goStartsWithChars : List Char → List Char → Bool
  | _, [] => true
  | [], _ :: _ => false
  | c :: cs, p :: ps => c = p && goStartsWithChars cs ps

/-- Go `strings.HasPrefix(s, pre)`. -/
def goStartsWith (s pre : String) : Bool := goStartsWithChars s.data pre.data

/-! ## pkg/setup: ParseRepoString (setup.go lines 27-59) -/

structure RepoConfig where
  domain : String
  org : String
  repoName : String
  branch : String
deriving Repr, DecidableEq

/-- Embedding of `ParseRepoString(repo, defaultBranch)`: splits the string on
`/`, then switches on the number of parts: 3 parts give an explicit domain,
2 parts default the domain to `github.com`, anything else is an error
(`none`). -/
def parseRepoString (repo defaultBranch : String) : Option RepoConfig :=
  match goSplit repo '/' with
  | [domain, org, name] => some ⟨domain, org, name, defaultBranch⟩
  | [org, name] => some ⟨"github.com", org, name, defaultBranch⟩
  | _ => none

/-- `RepoConfig.IsGitHubEnterprise` (setup.go lines 57-59). -/
def RepoConfig.isGitHubEnterprise (rc : RepoConfig) : Bool :=
  rc.domain != "github.com"

/-! ## pkg/worktree: directory enumeration (worktree.go lines 43-72)

`os.ReadDir` results are modelled as the list of entries, each carrying the
name and the directory flag, in the order the filesystem returned them. -/

structure DirEntry where
  name : String
  isDir : Bool
deriving Repr, DecidableEq

/-- `GetWorktreeDirs` (worktree.go lines 43-56): every entry of the repository
root that is a directory and whose name does not start with `.`, joined onto
the root path, in enumeration order. -/
def getWorktreeDirs (gitRoot : Path) (entries : List DirEntry) : List Path :=
  (entries.filter (fun e => e.isDir && !(goStartsWith e.name "."))).map
    (fun e => fjoin gitRoot e.name)

/-- `GetFilteredWorktrees` (worktree.go lines 58-72): `GetWorktreeDirs` minus
the directories whose base name is `main`, `master` or `review`. -/
def getFilteredWorktrees (gitRoot : Path) (entries : List DirEntry) : List Path :=
  (getWorktreeDirs gitRoot entries).filter (fun dir =>
    let name := fbase dir
    name != "main" && name != "master" && name != "review")

/-- `GetHooksDir` (worktree.go lines 74-76). -/
def getHooksDir (gitRoot : Path) : Path := fjoin gitRoot ".hooks"

/-- `GetPostAddHook` (worktree.go lines 78-80). -/
def getPostAddHook (gitRoot : Path) : Path := fjoin (getHooksDir gitRoot) "post-add.sh"

/-! ## pkg/worktree: lifecycle operations with external effects

Each external call's outcome is an explicit field of `WtEnv`; an operation
returns the ordered list of external actions it attempted (`trace`), the
process working directory after the call (`cwd`), and the returned error. -/

inductive WtAction where
  | chdir (path : Path)
  | gitWorktreeAdd (branch base : String)
  | gitWorktreeRemove (name : String)
  | deleteBranch (name : String)
  | runHook (worktreePath : Path)
  | warn (msg : String)
deriving Repr, DecidableEq

def WtAction.isChdir : WtAction → Bool
  | .chdir _ => true
  | _ => false

structure WtEnv where
  chdirOk : Path → Bool
  readDir : Option (List DirEntry)
  worktreeAddOk : Bool
  removeOk : String → Bool
  deleteBranchOk : String → Bool
  hookExists : Bool
  hookRunOk : Bool

structure WtOutcome where
  trace : List WtAction
  cwd : Path
  err : Option String
deriving Repr, DecidableEq

/-- Projection of a trace to the worktree names whose forced removal was
attempted. -/
def removesOf (tr : List WtAction) : List String :=
  tr.filterMap (fun a => match a with | .gitWorktreeRemove w => some w | _ => none)

/-- Projection of a trace to the branch names whose deletion was attempted. -/
def deletesOf (tr : List WtAction) : List String :=
  tr.filterMap (fun a => match a with | .deleteBranch w => some w | _ => none)

/-- Projection of a trace to the warnings printed. -/
def warnsOf (tr : List WtAction) : List String :=
  tr.filterMap (fun a => match a with | .warn m => some m | _ => none)

/-- `RunPostAddHook` (worktree.go lines 113-120): if the hook file does not
exist the call is a no-op returning `nil`; otherwise the hook is run in the
new worktree's directory and its error is returned as-is. -/
def runPostAddHook (worktreePath : Path) (env : WtEnv) : List WtAction × Option String :=
  if !env.hookExists then ([], none)
  else if env.hookRunOk then ([.runHook worktreePath], none)
  else ([.runHook worktreePath], some "hook failed")

/-- `AddWorktree` (worktree.go lines 122-141): default the base to `main`,
change into the repository root, run `git worktree add -b branch branch base`,
then run the post-add hook, wrapping a hook failure in a distinct message. -/
def addWorktree (gitRoot : Path) (branch base : String) (cwd0 : Path)
    (env : WtEnv) : WtOutcome :=
  let baseBranch := if base = "" then "main" else base
  if !env.chdirOk gitRoot then ⟨[.chdir gitRoot], cwd0, some "chdir failed"⟩
  else if !env.worktreeAddOk then
    ⟨[.chdir gitRoot, .gitWorktreeAdd branch baseBranch], gitRoot,
      some "git worktree add failed"⟩
  else
    match runPostAddHook (fjoin gitRoot branch) env with
    | (acts, some e) =>
      ⟨[.chdir gitRoot, .gitWorktreeAdd branch baseBranch] ++ acts, gitRoot,
        some ("failed to run post-add hook: " ++ e)⟩
    | (acts, none) =>
      ⟨[.chdir gitRoot, .gitWorktreeAdd branch baseBranch] ++ acts, gitRoot, none⟩

/-- The per-item loop of `ClearWorktrees` (worktree.go lines 171-183): forced
removal first; on failure warn and continue to the next item; otherwise branch
deletion, warning (but continuing) if that fails. -/
def clearLoop (env : WtEnv) : List Path → List WtAction
  | [] => []
  | p :: ps =>
    let w := fbase p
    (if !env.removeOk w then
      [WtAction.gitWorktreeRemove w, .warn ("failed to remove worktree " ++ w)]
    else if !env.deleteBranchOk w then
      [WtAction.gitWorktreeRemove w, .deleteBranch w,
        .warn ("failed to delete branch " ++ w)]
    else
      [WtAction.gitWorktreeRemove w, .deleteBranch w]) ++ clearLoop env ps

/-- `ClearWorktrees` (worktree.go lines 157-186): change into the repository
root, enumerate the removable worktrees, return `nil` immediately when there
are none, and otherwise run the best-effort removal loop, returning `nil`
regardless of per-item failures. -/
def clearWorktrees (gitRoot cwd0 : Path) (env : WtEnv) : WtOutcome :=
  if !env.chdirOk gitRoot then ⟨[.chdir gitRoot], cwd0, some "chdir failed"⟩
  else
    match env.readDir with
    | none => ⟨[.chdir gitRoot], gitRoot, some "read dir failed"⟩
    | some entries =>
      let filtered := getFilteredWorktrees gitRoot entries
      if filtered.isEmpty then ⟨[.chdir gitRoot], gitRoot, none⟩
      else ⟨.chdir gitRoot :: clearLoop env filtered, gitRoot, none⟩

/-- `SwitchWorktree` (worktree.go lines 188-190): just `os.Chdir` to the
worktree path. -/
def switchWorktree (worktreePath cwd0 : Path) (env : WtEnv) : WtOutcome :=
  if env.chdirOk worktreePath then ⟨[.chdir worktreePath], worktreePath, none⟩
  else ⟨[.chdir worktreePath], cwd0, some "chdir failed"⟩

/-! ## pkg/setup: repository bootstrap (setup.go lines 61-209) -/

inductive SetupAction where
  | loadConfig
  | mkdirAll (dir : String)
  | chdir (dir : String)
  | cloneBare (url path : String)
  | writeGitDir (content : String)
  | addRemote (repoPath name url : String)
  | createHooks (base branch : String)
  | worktreeAdd (branch : String) (force : Bool)
deriving Repr, DecidableEq

structure SetupEnv where
  loadConfigOk : Bool
  getAccount : String → String
  mkdirOk : Bool
  chdirOk : Bool
  cloneOk : Bool
  cwd : String
  writeFileOk : Bool
  addRemoteOk : Bool
  createHooksOk : Bool
  addBaseOk : Bool
  addReviewOk : Bool

/-- All the external steps of a bootstrap succeed. -/
def SetupEnv.allOk (env : SetupEnv) : Prop :=
  env.loadConfigOk = true ∧ env.mkdirOk = true ∧ env.chdirOk = true ∧
  env.cloneOk = true ∧ env.writeFileOk = true ∧ env.addRemoteOk = true ∧
  env.createHooksOk = true ∧ env.addBaseOk = true ∧ env.addReviewOk = true

/-- Transport URL built throughout setup.go: `https://domain/org/repo.git`. -/
def httpsURL (domain org repo : String) : String :=
  "https://" ++ domain ++ "/" ++ org ++ "/" ++ repo ++ ".git"

/-- `createGitDirFile` (setup.go lines 181-189): writes the pointer file
`.git` with content `gitdir: <cwd>/.bare`.  (`os.Getwd` is the `cwd` field of
the environment; its own failure mode is not modelled since no claim touches
it.) -/
def createGitDirFile (env : SetupEnv) : List SetupAction × Option String :=
  let content := "gitdir: " ++ env.cwd ++ "/.bare"
  if env.writeFileOk then ([.writeGitDir content], none)
  else ([.writeGitDir content], some "write .git failed")

/-- `finishSetup` (setup.go lines 191-209): create the hooks parameterized by
the base remote and branch, then worktrees for the base branch and (forced)
for `review`. -/
def finishSetup (base branch : String) (env : SetupEnv) :
    List SetupAction × Option String :=
  if !env.createHooksOk then
    ([.createHooks base branch], some "create hooks failed")
  else if !env.addBaseOk then
    ([.createHooks base branch, .worktreeAdd branch false], some "worktree add failed")
  else if !env.addReviewOk then
    ([.createHooks base branch, .worktreeAdd branch false, .worktreeAdd "review" true],
      some "worktree add review failed")
  else
    ([.createHooks base branch, .worktreeAdd branch false, .worktreeAdd "review" true],
      none)

/-- `setupDirectCloneGHE` (setup.go lines 112-134): clone straight from the
original repository; `origin` stays the only remote and the hook base. -/
def setupDirectCloneGHE (rc : RepoConfig) (env : SetupEnv) :
    List SetupAction × Option String :=
  if !env.mkdirOk then ([.mkdirAll rc.repoName], some "mkdir failed")
  else if !env.chdirOk then
    ([.mkdirAll rc.repoName, .chdir rc.repoName], some "chdir failed")
  else
    let url := httpsURL rc.domain rc.org rc.repoName
    let pre := [SetupAction.mkdirAll rc.repoName, .chdir rc.repoName,
      .cloneBare url ".bare"]
    if !env.cloneOk then (pre, some "clone failed")
    else
      match createGitDirFile env with
      | (acts, some e) => (pre ++ acts, some e)
      | (acts, none) =>
        match finishSetup "origin" rc.branch env with
        | (acts2, r) => (pre ++ acts ++ acts2, r)

/-- `setupGHERepo` (setup.go lines 68-110): with no configured account, fall
back to the direct clone; otherwise clone the account's fork as `.bare`, add
an `upstream` remote pointing at the original repository, and finish with
`upstream` as the hook base. -/
def setupGHERepo (rc : RepoConfig) (env : SetupEnv) :
    List SetupAction × Option String :=
  if !env.loadConfigOk then ([.loadConfig], some "failed to load config")
  else
    let account := env.getAccount rc.domain
    if account = "" then
      match setupDirectCloneGHE rc env with
      | (acts, r) => (SetupAction.loadConfig :: acts, r)
    else if !env.mkdirOk then
      ([.loadConfig, .mkdirAll rc.repoName], some "mkdir failed")
    else if !env.chdirOk then
      ([.loadConfig, .mkdirAll rc.repoName, .chdir rc.repoName], some "chdir failed")
    else
      let repoURL := httpsURL rc.domain account rc.repoName
      let pre := [SetupAction.loadConfig, .mkdirAll rc.repoName, .chdir rc.repoName,
        .cloneBare repoURL ".bare"]
      if !env.cloneOk then (pre, some "clone failed")
      else
        match createGitDirFile env with
        | (acts, some e) => (pre ++ acts, some e)
        | (acts, none) =>
          let upstreamURL := httpsURL rc.domain rc.org rc.repoName
          let pre2 := pre ++ acts ++ [SetupAction.addRemote ".bare" "upstream" upstreamURL]
          if !env.addRemoteOk then (pre2, some "add remote failed")
          else
            match finishSetup "upstream" rc.branch env with
            | (acts2, r) => (pre2 ++ acts2, r)

/-- The guidance error of `setupGitHubRepo` when no account is configured for
the default host (setup.go line 145). -/
def noAccountMsg (domain : String) : String :=
  "no account configured for " ++ domain ++ ". Use wt config set-account " ++
    domain ++ " <username> to configure"

/-- `setupGitHubRepo` (setup.go lines 136-178): require a configured account,
clone the canonical repository as `.bare`, and add a remote named after the
account only when it differs from the organization; `origin` is the hook
base. -/
def setupGitHubRepo (rc : RepoConfig) (env : SetupEnv) :
    List SetupAction × Option String :=
  if !env.loadConfigOk then ([.loadConfig], some "failed to load config")
  else
    let account := env.getAccount rc.domain
    if account = "" then ([.loadConfig], some (noAccountMsg rc.domain))
    else if !env.mkdirOk then
      ([.loadConfig, .mkdirAll rc.repoName], some "mkdir failed")
    else if !env.chdirOk then
      ([.loadConfig, .mkdirAll rc.repoName, .chdir rc.repoName], some "chdir failed")
    else
      let originURL := httpsURL rc.domain rc.org rc.repoName
      let pre := [SetupAction.loadConfig, .mkdirAll rc.repoName, .chdir rc.repoName,
        .cloneBare originURL ".bare"]
      if !env.cloneOk then (pre, some "clone failed")
      else
        match createGitDirFile env with
        | (acts, some e) => (pre ++ acts, some e)
        | (acts, none) =>
          if account != rc.org then
            let forkURL := httpsURL rc.domain account rc.repoName
            let pre2 := pre ++ acts ++ [SetupAction.addRemote ".bare" account forkURL]
            if !env.addRemoteOk then (pre2, some "add remote failed")
            else
              match finishSetup "origin" rc.branch env with
              | (acts2, r) => (pre2 ++ acts2, r)
          else
            match finishSetup "origin" rc.branch env with
            | (acts2, r) => (pre ++ acts ++ acts2, r)

/-- `SetupRepository` (setup.go lines 61-66): dispatch on the host class. -/
def setupRepository (rc : RepoConfig) (env : SetupEnv) :
    List SetupAction × Option String :=
  if rc.isGitHubEnterprise then setupGHERepo rc env else setupGitHubRepo rc env

/-! ## cmd: the command layer and the WT_CHDIR signalling protocol

Each cobra `RunE` is embedded as a function returning the stdout lines, the
stderr lines and the returned error. -/

structure CmdResult where
  out : List String
  errOut : List String
  err : Option String
deriving Repr, DecidableEq

/-- Number of signalling lines (lines with the `WT_CHDIR:` marker) in the
combined output of a command. -/
def chdirLineCount (r : CmdResult) : Nat :=
  ((r.out ++ r.errOut).filter (fun l => goStartsWith l "WT_CHDIR:")).length

/-- `addCmd.RunE` (cmd/add.go lines 30-47): on success prints the signalling
line for the new worktree's path; on any failure it just returns the error. -/
def addCmdRun (findRootOk : Bool) (gitRoot : Path) (branch base : String)
    (cwd0 : Path) (env : WtEnv) : CmdResult :=
  if !findRootOk then ⟨[], [], some "not in a git repository"⟩
  else
    let header := "Creating worktree and branch: " ++ branch ++ " from base: " ++ base
    match addWorktree gitRoot branch base cwd0 env with
    | ⟨_, _, some e⟩ => ⟨[header], [], some e⟩
    | ⟨_, _, none⟩ =>
      ⟨[header, "WT_CHDIR:" ++ pathStr (fjoin gitRoot branch)], [], none⟩

/-- The tail of `switchCmd.RunE` (cmd/switch.go lines 135-141): switch to the
selected worktree, then print the confirmation and the signalling line. -/
def switchFinish (dir cwd0 : Path) (env : WtEnv) : CmdResult :=
  match switchWorktree dir cwd0 env with
  | ⟨_, _, some _⟩ => ⟨[], [], some "failed to switch to worktree"⟩
  | ⟨_, _, none⟩ =>
    ⟨["Switched to worktree: " ++ pathStr dir, "WT_CHDIR:" ++ pathStr dir], [], none⟩

/-- `switchCmd.RunE` (cmd/switch.go lines 94-142).  A targeted switch
resolves the argument against the worktree base names; an interactive switch
consults the selector, whose outcome is the pair `selectErr`/`selected`
(`selected = none` models the empty-string return, i.e. the user declined). -/
def switchCmdRun (findRootOk : Bool) (gitRoot : Path) (args : List String)
    (selectErr : Option String) (selected : Option Path) (cwd0 : Path)
    (env : WtEnv) : CmdResult :=
  if !findRootOk then ⟨[], [], some "must be in a git repository to switch worktrees"⟩
  else
    match env.readDir with
    | none => ⟨[], [], some "read dir failed"⟩
    | some entries =>
      let worktreeDirs := getWorktreeDirs gitRoot entries
      if worktreeDirs.isEmpty then ⟨["No worktrees available"], [], none⟩
      else
        match args with
        | target :: _ =>
          match worktreeDirs.find? (fun dir => fbase dir == target) with
          | none => ⟨[], [], some ("worktree not found: " ++ target)⟩
          | some dir => switchFinish dir cwd0 env
        | [] =>
          match selectErr with
          | some e => ⟨[], [], some e⟩
          | none =>
            match selected with
            | none => ⟨["No worktree selected, staying where we are"], [], none⟩
            | some dir => switchFinish dir cwd0 env

/-- Modelled from the spec: the revision of `ClearWorktrees` that
cmd/clear.go (lines 59-91) calls returns an extra flag that is true exactly
when the clear operation leaves the repository root (the invocation removed
the worktree the shell was inside).  That revision's body is not among the
provided sources — the worktree.go provided returns only `error` — so the
flag is an oracle input `leftRoot`; the removal behaviour is the
`clearWorktrees` embedding. -/
def clearWorktreesChdir (gitRoot cwd0 : Path) (env : WtEnv) (leftRoot : Bool) :
    WtOutcome × Bool :=
  (clearWorktrees gitRoot cwd0 env, leftRoot)

/-- `clearCmd.RunE` (cmd/clear.go lines 59-91): enumerate, bail out on an
empty removable list, run the clear, and emit the signalling line (to stderr,
naming the repository root) exactly when the clear left the root. -/
def clearCmdRun (findRootOk : Bool) (gitRoot : Path) (env : WtEnv)
    (leftRoot : Bool) (cwd0 : Path) : CmdResult :=
  if !findRootOk then ⟨[], [], some "must be in a git repository to clear worktrees"⟩
  else
    match env.readDir with
    | none => ⟨[], [], some "read dir failed"⟩
    | some entries =>
      if (getFilteredWorktrees gitRoot entries).isEmpty then
        ⟨["No worktrees to clear"], [], none⟩
      else
        let header := "Removing all worktrees except main, master and review"
        match clearWorktreesChdir gitRoot cwd0 env leftRoot with
        | (⟨_, _, some e⟩, _) => ⟨[header], [], some e⟩
        | (⟨_, _, none⟩, needs) =>
          if needs then ⟨[header], ["WT_CHDIR:" ++ pathStr gitRoot], none⟩
          else ⟨[header], [], none⟩

/-- `setupCmd.RunE` (the revision emitting the signal, src/unnamed/part_006
lines 77-94): parse the identifier, run the bootstrap, and on success emit
the signalling line for the repository name to stderr. -/
def setupCmdRun (repoArg branchFlag : String) (env : SetupEnv) : CmdResult :=
  match parseRepoString repoArg branchFlag with
  | none => ⟨[], [], some "invalid repository format. Expected [domain/]org/repo"⟩
  | some rc =>
    match setupRepository rc env with
    | (_, some e) => ⟨[], [], some e⟩
    | (_, none) => ⟨[], ["WT_CHDIR:" ++ rc.repoName], none⟩

/-! ## The shell wrapper (src/unnamed/part_000, `wt`; src/worktree.sh is the
same logic reading only stderr)

The wrapper captures the command output, prints it, extracts the text after
the `WT_CHDIR:` marker of every matching line (grep + sed, so multiple
matches are joined with newlines), and changes directory only when the result
is nonempty and an existing directory; `cd` failing prints a warning. -/

structure WrapperEnv where
  isDir : String → Bool
  cdOk : String → Bool

structure WrapperResult where
  printed : List String
  movedTo : Option String
  warned : Bool
deriving Repr, DecidableEq

/-- `sed` stripping the 9-character `WT_CHDIR:` marker from a line. -/
def stripChdir (l : String) : String := String.mk (l.data.drop 9)

/-- The `target_dir` computed by the wrapper from the captured output. -/
def chdirTarget (output : List String) : String :=
  String.intercalate "\n"
    ((output.filter (fun l => goStartsWith l "WT_CHDIR:")).map stripChdir)

/-- The `wt` wrapper function (src/unnamed/part_000 lines 20-47). -/
def wtWrapper (output : List String) (env : WrapperEnv) : WrapperResult :=
  let targetDir := chdirTarget output
  if targetDir != "" && env.isDir targetDir then
    if env.cdOk targetDir then ⟨output, some targetDir, false⟩
    else ⟨output ++ ["Warning: Failed to change to directory: " ++ targetDir],
      none, true⟩
  else ⟨output, none, false⟩

/-! ## pkg/git: SSH credential resolution (src/unnamed/part_002 lines 107-177;
pkg/git/git.go carries an earlier revision of `getSSHAuth` without the
explicit SSH_AUTH_SOCK probe) -/

inductive SSHAuthMethod where
  | agentEnv
  | agentLib
  | keyFile (path : String)
deriving Repr, DecidableEq

structure SSHEnv where
  sshAuthSock : String
  dialOk : Bool
  agentKeys : Option Nat
  agentAuthOk : Bool
  homeDir : Option String
  statOk : String → Bool
  keyAuthOk : String → Bool

/-- The explicit agent probe of step 1: the socket is set, connecting
succeeds, and listing reports at least one key. -/
def agentProbeOk (env : SSHEnv) : Bool :=
  env.sshAuthSock != "" && env.dialOk &&
    (match env.agentKeys with | some n => decide (0 < n) | none => false)

/-- The conventional key locations, in the order the source tries them. -/
def sshKeyPaths (home : String) : List String :=
  [home ++ "/.ssh/id_rsa", home ++ "/.ssh/id_ed25519", home ++ "/.ssh/id_ecdsa"]

def noAuthMsg : String :=
  "no SSH authentication method available (tried SSH agent and common key locations)"

/-- The key-file loop of `getSSHAuth`: first path that both exists and loads
as a credential. -/
def tryKeyFiles (env : SSHEnv) : List String → Option SSHAuthMethod
  | [] => none
  | p :: ps =>
    if env.statOk p && env.keyAuthOk p then some (.keyFile p)
    else tryKeyFiles env ps

/-- `getSSHAuth` (src/unnamed/part_002 lines 131-177): (1) the SSH agent via
the SSH_AUTH_SOCK probe, (2) the library's own agent auth
(`NewSSHAgentAuth`, the same deterministic call as in step 1, hence the
shared `agentAuthOk` field), (3) the conventional key files; otherwise the
dedicated error.  A missing home directory is its own error. -/
def getSSHAuth (env : SSHEnv) : Except String SSHAuthMethod :=
  if agentProbeOk env && env.agentAuthOk then .ok .agentEnv
  else if env.agentAuthOk then .ok .agentLib
  else
    match env.homeDir with
    | none => .error "failed to get user home directory"
    | some home =>
      match tryKeyFiles env (sshKeyPaths home) with
      | some m => .ok m
      | none => .error noAuthMsg

/-- `CloneBare` (src/unnamed/part_002 lines 107-128), restricted to the auth
dispatch: an SSH-style URL (`git@` ...) requires `getSSHAuth` to produce a
credential, and its failure fails the clone with the wrapped message. -/
def cloneBare (url : String) (env : SSHEnv) (cloneOk : Bool) : Option String :=
  if goStartsWith url "git@" then
    match getSSHAuth env with
    | .error e => some ("failed to configure SSH authentication: " ++ e)
    | .ok _ => if cloneOk then none else some "clone failed"
  else if cloneOk then none else some "clone failed"

end Worktree

/-! # Theorems -/

namespace Worktree

example : goSplit "org/repo" '/' = ["org", "repo"] := by decide
example : goSplit "" '/' = [""] := by decide
example : goSplit "a//b" '/' = ["a", "", "b"] := by decide
example : goStartsWith ".hidden" "." = true := by decide
example : goStartsWith "main" "." = false := by decide
example : parseRepoString "org/repo" "main" =
    some ⟨"github.com", "org", "repo", "main"⟩ := by decide
example : parseRepoString "ghe.example.com/org/repo" "main" =
    some ⟨"ghe.example.com", "org", "repo", "main"⟩ := by decide
example : parseRepoString "justrepo" "main" = none := by decide
example : parseRepoString "a/b/c/d" "main" = none := by decide
example : pathStr ["repo", "feature"] = "repo/feature" := by decide

/-- The recursion always yields at least one segment, as `strings.Split` does. -/
theorem splitChars_ne_nil (sep : Char) (cs : List Char) : splitChars sep cs ≠ [] := by
  cases cs with
  | nil => simp [splitChars]
  | cons c cs =>
    simp only [splitChars]
    rcases splitChars sep cs with _ | ⟨r, rs⟩ <;> split <;> split_ifs <;> simp

/-- A positive test only looks at the text up to the tested length. -/
theorem goStartsWithChars_append (p cs : List Char) :
    goStartsWithChars (p ++ cs) p = true := by
  induction p with
  | nil => cases cs <;> simp [goStartsWithChars]
  | cons c ps ih => simp [goStartsWithChars, ih]

/-- Base of a joined path is the joined component. -/
theorem fbase_fjoin (p : Path) (name : String) : fbase (fjoin p name) = name := by
  simp [fbase, fjoin, List.getLastD_concat]

/-- The filtering of `GetFilteredWorktrees`, pushed down to the directory
entries: it keeps exactly the visible directory entries whose name is not
protected, in enumeration order. -/
theorem getFilteredWorktrees_eq_filter_entries (gitRoot : Path)
    (entries : List DirEntry) :
    getFilteredWorktrees gitRoot entries =
      (entries.filter (fun e => e.isDir && !(goStartsWith e.name ".") &&
        (e.name != "main" && e.name != "master" && e.name != "review"))).map
        (fun e => fjoin gitRoot e.name) := by
  induction entries with
  | nil => rfl
  | cons e es ih =>
    simp only [getFilteredWorktrees, getWorktreeDirs] at ih ⊢
    by_cases h1 : e.isDir = true <;>
      by_cases h2 : goStartsWith e.name "." = true <;>
        by_cases h3 : (e.name != "main" && e.name != "master" &&
          e.name != "review") = true <;>
          simp [List.filter_cons, h1, h2, h3, fbase_fjoin, ih]

/-- Every item of the clear loop gets a removal attempt, in order, whatever
the per-item outcomes are. -/
theorem removesOf_clearLoop (env : WtEnv) (ps : List Path) :
    removesOf (clearLoop env ps) = ps.map fbase := by
  induction ps with
  | nil => rfl
  | cons p ps ih =>
    simp only [removesOf] at ih ⊢
    simp only [clearLoop]
    by_cases h1 : env.removeOk (fbase p) = true <;>
      by_cases h2 : env.deleteBranchOk (fbase p) = true <;>
        simp [List.filterMap_append, List.filterMap_cons, h1, h2, ih]

/-- Branch deletion is attempted exactly for the items whose removal
succeeded. -/
theorem deletesOf_clearLoop (env : WtEnv) (ps : List Path) :
    deletesOf (clearLoop env ps) = (ps.map fbase).filter env.removeOk := by
  induction ps with
  | nil => rfl
  | cons p ps ih =>
    simp only [deletesOf] at ih ⊢
    simp only [clearLoop]
    by_cases h1 : env.removeOk (fbase p) = true <;>
      by_cases h2 : env.deleteBranchOk (fbase p) = true <;>
        simp [List.filterMap_append, List.filterMap_cons, List.filter_cons,
          h1, h2, ih]

/-- One warning per failed step, in loop order. -/
theorem warnsOf_clearLoop (env : WtEnv) (ps : List Path) :
    warnsOf (clearLoop env ps) = ps.filterMap (fun p =>
      if !env.removeOk (fbase p) then
        some ("failed to remove worktree " ++ fbase p)
      else if !env.deleteBranchOk (fbase p) then
        some ("failed to delete branch " ++ fbase p)
      else none) := by
  induction ps with
  | nil => rfl
  | cons p ps ih =>
    simp only [warnsOf] at ih ⊢
    simp only [clearLoop]
    by_cases h1 : env.removeOk (fbase p) = true <;>
      by_cases h2 : env.deleteBranchOk (fbase p) = true <;>
        simp [List.filterMap_append, List.filterMap_cons, h1, h2, ih]

theorem removesOf_cons_chdir (q : Path) (tr : List WtAction) :
    removesOf (WtAction.chdir q :: tr) = removesOf tr := rfl

theorem deletesOf_cons_chdir (q : Path) (tr : List WtAction) :
    deletesOf (WtAction.chdir q :: tr) = deletesOf tr := rfl

theorem warnsOf_cons_chdir (q : Path) (tr : List WtAction) :
    warnsOf (WtAction.chdir q :: tr) = warnsOf tr := rfl

/-- A line whose first character is not the marker's first character is not a
signalling line. -/
theorem goStartsWith_marker_false (s : String) (h : s.data.head? ≠ some 'W') :
    goStartsWith s "WT_CHDIR:" = false := by
  rw [goStartsWith]
  have hm : ("WT_CHDIR:").data = 'W' :: ("T_CHDIR:").data := by decide
  rw [hm]
  rcases hd : s.data with _ | ⟨c, cs⟩
  · rfl
  · rw [hd] at h
    have hc : c ≠ 'W' := by
      intro hcc
      exact h (by rw [hcc]; rfl)
    simp [goStartsWithChars, hc]

/-- The head of an appended string with a nonempty left part. -/
theorem head_data_append (s t : String) (c : Char) (h : s.data.head? = some c) :
    (s ++ t).data.head? = some c := by
  rw [String.data_append]
  rcases hd : s.data with _ | ⟨x, xs⟩
  · rw [hd] at h
    cases h
  · rw [hd] at h
    simpa using h

/-- A line made by prefixing the marker is a signalling line. -/
theorem goStartsWith_marker_append (x : String) :
    goStartsWith ("WT_CHDIR:" ++ x) "WT_CHDIR:" = true := by
  rw [goStartsWith, String.data_append]
  exact goStartsWithChars_append _ _

theorem noAvail_not_marker :
    goStartsWith "No worktrees available" "WT_CHDIR:" = false := by decide

theorem noSelected_not_marker :
    goStartsWith "No worktree selected, staying where we are" "WT_CHDIR:" = false := by
  decide

theorem removingHeader_not_marker :
    goStartsWith "Removing all worktrees except main, master and review"
      "WT_CHDIR:" = false := by decide

theorem noClear_not_marker :
    goStartsWith "No worktrees to clear" "WT_CHDIR:" = false := by decide

theorem addHeader_not_marker (branch base : String) :
    goStartsWith ("Creating worktree and branch: " ++ branch ++ " from base: " ++ base)
      "WT_CHDIR:" = false := by
  apply goStartsWith_marker_false
  have h1 : ("Creating worktree and branch: ").data.head? = some 'C' := by decide
  have h2 := head_data_append "Creating worktree and branch: " branch 'C' h1
  have h3 := head_data_append ("Creating worktree and branch: " ++ branch)
    " from base: " 'C' h2
  have h4 := head_data_append
    ("Creating worktree and branch: " ++ branch ++ " from base: ") base 'C' h3
  rw [h4]
  decide

theorem switchedHeader_not_marker (x : String) :
    goStartsWith ("Switched to worktree: " ++ x) "WT_CHDIR:" = false := by
  apply goStartsWith_marker_false
  have h1 : ("Switched to worktree: ").data.head? = some 'S' := by decide
  rw [head_data_append "Switched to worktree: " x 'S' h1]
  decide

/-- Stripping the marker recovers the path. -/
theorem stripChdir_marker (p : String) : stripChdir ("WT_CHDIR:" ++ p) = p := by
  rw [stripChdir, String.data_append]
  have h9 : ("WT_CHDIR:").data.length = 9 := by decide
  rw [← h9, List.drop_left]

/-- The key-file loop is the first match of the ordered candidate list. -/
theorem tryKeyFiles_eq_find (env : SSHEnv) (ps : List String) :
    tryKeyFiles env ps =
      (ps.find? (fun p => env.statOk p && env.keyAuthOk p)).map
        SSHAuthMethod.keyFile := by
  induction ps with
  | nil => rfl
  | cons p ps ih =>
    by_cases h : (env.statOk p && env.keyAuthOk p) = true <;>
      simp [tryKeyFiles, List.find?_cons, h, ih]

/-- The clear loop never changes directory. -/
theorem clearLoop_no_chdir (env : WtEnv) (ps : List Path) :
    ∀ a ∈ clearLoop env ps, a.isChdir = false := by
  induction ps with
  | nil => simp [clearLoop]
  | cons p ps ih =>
    intro a ha
    simp only [clearLoop, List.mem_append] at ha
    rcases ha with ha | ha
    · split_ifs at ha <;> fin_cases ha <;> rfl
    · exact ih a ha

end Worktree

open Worktree

/-- C1: for every input string handed to `ParseRepoString`, if the string has
exactly 2 slash-delimited segments, parsing succeeds with domain `github.com`
and the two segments as organization and repository name; with exactly 3
segments it succeeds and the domain is the first segment; with 1 or
4-or-more segments it fails. -/
theorem C1_parseRepoString_segments (s b : String) :
    ((goSplit s '/').length = 2 →
      parseRepoString s b =
        some ⟨"github.com", (goSplit s '/').getD 0 "", (goSplit s '/').getD 1 "", b⟩) ∧
    ((goSplit s '/').length = 3 →
      parseRepoString s b =
        some ⟨(goSplit s '/').getD 0 "", (goSplit s '/').getD 1 "",
          (goSplit s '/').getD 2 "", b⟩) ∧
    ((goSplit s '/').length = 1 ∨ 4 ≤ (goSplit s '/').length →
      parseRepoString s b = none) := by
  rcases h : goSplit s '/' with _ | ⟨a, _ | ⟨c, _ | ⟨d, _ | ⟨e, l⟩⟩⟩⟩ <;>
    simp [parseRepoString, h]

/-- Witness for C1 at concrete inputs: a 2-segment identifier parses to the
default public host, and a 4-segment one fails. -/
theorem C1_parseRepoString_segments_witness :
    ((goSplit "org/repo" '/').length = 2 ∧
      parseRepoString "org/repo" "main" =
        some ⟨"github.com", (goSplit "org/repo" '/').getD 0 "",
          (goSplit "org/repo" '/').getD 1 "", "main"⟩) ∧
    ((goSplit "a/b/c/d" '/').length = 1 ∨ 4 ≤ (goSplit "a/b/c/d" '/').length) ∧
    parseRepoString "a/b/c/d" "main" = none :=
  ⟨⟨by decide, (C1_parseRepoString_segments "org/repo" "main").1 (by decide)⟩,
    Or.inr (by decide),
    (C1_parseRepoString_segments "a/b/c/d" "main").2.2 (Or.inr (by decide))⟩

/-- C2: for every set of entries in the repository root,
`GetFilteredWorktrees` returns exactly the non-hidden immediate
subdirectories whose base name is not in `{main, master, review}`, in the
relative order in which `GetWorktreeDirs` enumerated them (the map of an
order-preserving filter of the entry list); in particular no returned path
has base name `main`, `master` or `review`. -/
theorem C2_getFilteredWorktrees_protected (gitRoot : Path) (entries : List DirEntry) :
    getFilteredWorktrees gitRoot entries =
      (entries.filter (fun e => e.isDir && !(goStartsWith e.name ".") &&
        (e.name != "main" && e.name != "master" && e.name != "review"))).map
        (fun e => fjoin gitRoot e.name) ∧
    ∀ p ∈ getFilteredWorktrees gitRoot entries,
      fbase p ≠ "main" ∧ fbase p ≠ "master" ∧ fbase p ≠ "review" := by
  refine ⟨getFilteredWorktrees_eq_filter_entries gitRoot entries, ?_⟩
  intro p hp
  simp only [getFilteredWorktrees, List.mem_filter] at hp
  obtain ⟨-, hq⟩ := hp
  simp only [Bool.and_eq_true, bne_iff_ne, ne_eq] at hq
  exact ⟨hq.1.1, hq.1.2, hq.2⟩

/-- Witness for C2 at a concrete root: `feature` survives the filter and its
base name is unprotected. -/
theorem C2_getFilteredWorktrees_protected_witness :
    fjoin ["repo"] "feature" ∈
      getFilteredWorktrees ["repo"] [⟨"main", true⟩, ⟨"feature", true⟩] ∧
    (fbase (fjoin ["repo"] "feature") ≠ "main" ∧
      fbase (fjoin ["repo"] "feature") ≠ "master" ∧
      fbase (fjoin ["repo"] "feature") ≠ "review") :=
  ⟨by decide,
    (C2_getFilteredWorktrees_protected ["repo"] [⟨"main", true⟩, ⟨"feature", true⟩]).2
      (fjoin ["repo"] "feature") (by decide)⟩

/-- C3: `ClearWorktrees` fails exactly when the change into the repository
root or the enumeration fails; with a successful enumeration it returns
success whatever the per-item outcomes are, performs nothing beyond the
directory change when the removable list is empty, attempts a forced removal
for every removable worktree in order, attempts branch deletion exactly for
those whose removal succeeded, and logs one warning per failed step while
continuing the loop. -/
theorem C3_clearWorktrees_bestEffort (gitRoot cwd0 : Path) (env : WtEnv) :
    (env.chdirOk gitRoot = false → (clearWorktrees gitRoot cwd0 env).err ≠ none) ∧
    (env.chdirOk gitRoot = true → env.readDir = none →
      (clearWorktrees gitRoot cwd0 env).err ≠ none) ∧
    (∀ entries, env.chdirOk gitRoot = true → env.readDir = some entries →
      (clearWorktrees gitRoot cwd0 env).err = none ∧
      (getFilteredWorktrees gitRoot entries = [] →
        (clearWorktrees gitRoot cwd0 env).trace = [WtAction.chdir gitRoot]) ∧
      removesOf (clearWorktrees gitRoot cwd0 env).trace =
        (getFilteredWorktrees gitRoot entries).map fbase ∧
      deletesOf (clearWorktrees gitRoot cwd0 env).trace =
        ((getFilteredWorktrees gitRoot entries).map fbase).filter env.removeOk ∧
      warnsOf (clearWorktrees gitRoot cwd0 env).trace =
        (getFilteredWorktrees gitRoot entries).filterMap (fun p =>
          if !env.removeOk (fbase p) then
            some ("failed to remove worktree " ++ fbase p)
          else if !env.deleteBranchOk (fbase p) then
            some ("failed to delete branch " ++ fbase p)
          else none)) := by
  refine ⟨?_, ?_, ?_⟩
  · intro h
    simp [clearWorktrees, h]
  · intro h hrd
    simp [clearWorktrees, h, hrd]
  · intro entries h hrd
    by_cases he : getFilteredWorktrees gitRoot entries = []
    · simp [clearWorktrees, h, hrd, he, removesOf, deletesOf, warnsOf]
    · have ht : (clearWorktrees gitRoot cwd0 env).trace =
          WtAction.chdir gitRoot :: clearLoop env (getFilteredWorktrees gitRoot entries) := by
        simp [clearWorktrees, h, hrd, List.isEmpty_iff, he]
      have herr : (clearWorktrees gitRoot cwd0 env).err = none := by
        simp [clearWorktrees, h, hrd, List.isEmpty_iff, he]
      refine ⟨herr, fun hcontra => absurd hcontra he, ?_, ?_, ?_⟩
      · rw [ht, removesOf_cons_chdir, removesOf_clearLoop]
      · rw [ht, deletesOf_cons_chdir, deletesOf_clearLoop]
      · rw [ht, warnsOf_cons_chdir, warnsOf_clearLoop]

/-- Witness for C3: a concrete root where the only removable worktree's
forced removal fails, yet the call still succeeds and one warning is
logged. -/
theorem C3_clearWorktrees_bestEffort_witness :
    (WtEnv.mk (fun _ => true) (some [⟨"feature", true⟩, ⟨"main", true⟩]) true
        (fun _ => false) (fun _ => true) false true).chdirOk ["repo"] = true ∧
    (WtEnv.mk (fun _ => true) (some [⟨"feature", true⟩, ⟨"main", true⟩]) true
        (fun _ => false) (fun _ => true) false true).readDir =
      some [⟨"feature", true⟩, ⟨"main", true⟩] ∧
    (clearWorktrees ["repo"] []
      (WtEnv.mk (fun _ => true) (some [⟨"feature", true⟩, ⟨"main", true⟩]) true
        (fun _ => false) (fun _ => true) false true)).err = none :=
  ⟨rfl, rfl,
    ((C3_clearWorktrees_bestEffort ["repo"] []
      (WtEnv.mk (fun _ => true) (some [⟨"feature", true⟩, ⟨"main", true⟩]) true
        (fun _ => false) (fun _ => true) false true)).2.2
      [⟨"feature", true⟩, ⟨"main", true⟩] rfl rfl).1⟩

/-- C4: once the worktree-add step of `AddWorktree` succeeded, a missing hook
file is success (and the hook is never run); an existing hook whose run fails
yields the distinct post-add-hook error — different from the worktree-add
error — and the trace contains the creation but no removal: the worktree is
not rolled back. -/
theorem C4_addWorktree_hook (gitRoot cwd0 : Path) (branch base : String)
    (env : WtEnv) (hc : env.chdirOk gitRoot = true) (ha : env.worktreeAddOk = true) :
    (env.hookExists = false →
      (addWorktree gitRoot branch base cwd0 env).err = none ∧
      ∀ p, WtAction.runHook p ∉ (addWorktree gitRoot branch base cwd0 env).trace) ∧
    (env.hookExists = true → env.hookRunOk = false →
      (addWorktree gitRoot branch base cwd0 env).err =
        some ("failed to run post-add hook: " ++ "hook failed") ∧
      (addWorktree gitRoot branch base cwd0 env).err ≠
        some "git worktree add failed" ∧
      WtAction.gitWorktreeAdd branch (if base = "" then "main" else base) ∈
        (addWorktree gitRoot branch base cwd0 env).trace ∧
      removesOf (addWorktree gitRoot branch base cwd0 env).trace = []) := by
  constructor
  · intro hh
    simp [addWorktree, runPostAddHook, hc, ha, hh]
  · intro hh hr
    have herr : (addWorktree gitRoot branch base cwd0 env).err =
        some ("failed to run post-add hook: " ++ "hook failed") := by
      simp [addWorktree, runPostAddHook, hc, ha, hh, hr]
    have htr : (addWorktree gitRoot branch base cwd0 env).trace =
        [WtAction.chdir gitRoot,
          WtAction.gitWorktreeAdd branch (if base = "" then "main" else base),
          WtAction.runHook (fjoin gitRoot branch)] := by
      simp [addWorktree, runPostAddHook, hc, ha, hh, hr]
    refine ⟨herr, ?_, ?_, ?_⟩
    · rw [herr]
      decide
    · rw [htr]
      simp
    · rw [htr]
      rfl

/-- Witness for C4: concretely, with the hook present and failing, `add`
reports the hook error and removes nothing. -/
theorem C4_addWorktree_hook_witness :
    (WtEnv.mk (fun _ => true) none true (fun _ => true) (fun _ => true)
        true false).chdirOk ["repo"] = true ∧
    (WtEnv.mk (fun _ => true) none true (fun _ => true) (fun _ => true)
        true false).worktreeAddOk = true ∧
    (WtEnv.mk (fun _ => true) none true (fun _ => true) (fun _ => true)
        true false).hookExists = true ∧
    (WtEnv.mk (fun _ => true) none true (fun _ => true) (fun _ => true)
        true false).hookRunOk = false ∧
    (addWorktree ["repo"] "feature" "" []
      (WtEnv.mk (fun _ => true) none true (fun _ => true) (fun _ => true)
        true false)).err =
      some ("failed to run post-add hook: " ++ "hook failed") :=
  ⟨rfl, rfl, rfl, rfl,
    ((C4_addWorktree_hook ["repo"] [] "feature" ""
      (WtEnv.mk (fun _ => true) none true (fun _ => true) (fun _ => true)
        true false) rfl rfl).2 rfl rfl).1⟩

/-- C5: with no account configured for the identifier's domain, bootstrap on
an enterprise host clones directly from `domain/org/repo` into `.bare` inside
a new directory named after the repository, adds no remote at all (so
`origin` from the clone is the sole remote) and uses `origin` as the hook
base; on the default public host it fails with the guidance error and
performs no clone. -/
theorem C5_setup_noAccount (rc : RepoConfig) (env : SetupEnv)
    (hacc : env.getAccount rc.domain = "") (hok : env.allOk) :
    (rc.domain ≠ "github.com" →
      setupRepository rc env =
        ([SetupAction.loadConfig, .mkdirAll rc.repoName, .chdir rc.repoName,
          .cloneBare (httpsURL rc.domain rc.org rc.repoName) ".bare",
          .writeGitDir ("gitdir: " ++ env.cwd ++ "/.bare"),
          .createHooks "origin" rc.branch, .worktreeAdd rc.branch false,
          .worktreeAdd "review" true], none) ∧
      ∀ p n u, SetupAction.addRemote p n u ∉ (setupRepository rc env).1) ∧
    (rc.domain = "github.com" →
      setupRepository rc env =
        ([SetupAction.loadConfig], some (noAccountMsg rc.domain)) ∧
      ∀ u p, SetupAction.cloneBare u p ∉ (setupRepository rc env).1) := by
  obtain ⟨h1, h2, h3, h4, h5, h6, h7, h8, h9⟩ := hok
  constructor
  · intro hdom
    have hge : setupRepository rc env =
        ([SetupAction.loadConfig, .mkdirAll rc.repoName, .chdir rc.repoName,
          .cloneBare (httpsURL rc.domain rc.org rc.repoName) ".bare",
          .writeGitDir ("gitdir: " ++ env.cwd ++ "/.bare"),
          .createHooks "origin" rc.branch, .worktreeAdd rc.branch false,
          .worktreeAdd "review" true], none) := by
      simp [setupRepository, RepoConfig.isGitHubEnterprise, setupGHERepo,
        setupDirectCloneGHE, createGitDirFile, finishSetup, bne_iff_ne,
        hacc, hdom, h1, h2, h3, h4, h5, h6, h7, h8, h9]
    refine ⟨hge, ?_⟩
    rw [hge]
    simp
  · intro hdom
    rw [hdom] at hacc
    have hgh : setupRepository rc env =
        ([SetupAction.loadConfig], some (noAccountMsg rc.domain)) := by
      simp [setupRepository, RepoConfig.isGitHubEnterprise, setupGitHubRepo,
        hacc, hdom, h1]
    refine ⟨hgh, ?_⟩
    rw [hgh]
    simp

/-- Witness for C5: the spec's own example — enterprise host, organization
`acme`, repository `widgets`, no account — clones the canonical URL with no
added remote, and the same setup on `github.com` yields the guidance
error. -/
theorem C5_setup_noAccount_witness :
    (SetupEnv.mk true (fun _ => "") true true true "/w/widgets" true true true
        true true).getAccount "enterprise.example.com" = "" ∧
    "enterprise.example.com" ≠ "github.com" ∧
    setupRepository ⟨"enterprise.example.com", "acme", "widgets", "main"⟩
        (SetupEnv.mk true (fun _ => "") true true true "/w/widgets" true true
          true true true) =
      ([SetupAction.loadConfig, .mkdirAll "widgets", .chdir "widgets",
        .cloneBare "https://enterprise.example.com/acme/widgets.git" ".bare",
        .writeGitDir "gitdir: /w/widgets/.bare",
        .createHooks "origin" "main", .worktreeAdd "main" false,
        .worktreeAdd "review" true], none) :=
  ⟨rfl, by decide, by
    have h := ((C5_setup_noAccount
      ⟨"enterprise.example.com", "acme", "widgets", "main"⟩
      (SetupEnv.mk true (fun _ => "") true true true "/w/widgets" true true
        true true true) rfl
      ⟨rfl, rfl, rfl, rfl, rfl, rfl, rfl, rfl, rfl⟩).1 (by decide)).1
    simpa [httpsURL] using h⟩

/-- C6: with an account configured, bootstrap on an enterprise host clones
the account's fork as `.bare`, adds an `upstream` remote pointing at
`domain/org/repo` and uses `upstream` as the hook base; on the default host
it clones the canonical repository as `.bare` with `origin` as the hook base,
adding a remote named after the account (pointing at the account's fork) only
when the account differs from the organization. -/
theorem C6_setup_withAccount (rc : RepoConfig) (env : SetupEnv)
    (hacc : env.getAccount rc.domain ≠ "") (hok : env.allOk) :
    (rc.domain ≠ "github.com" →
      setupRepository rc env =
        ([SetupAction.loadConfig, .mkdirAll rc.repoName, .chdir rc.repoName,
          .cloneBare (httpsURL rc.domain (env.getAccount rc.domain) rc.repoName)
            ".bare",
          .writeGitDir ("gitdir: " ++ env.cwd ++ "/.bare"),
          .addRemote ".bare" "upstream" (httpsURL rc.domain rc.org rc.repoName),
          .createHooks "upstream" rc.branch, .worktreeAdd rc.branch false,
          .worktreeAdd "review" true], none)) ∧
    (rc.domain = "github.com" → env.getAccount rc.domain ≠ rc.org →
      setupRepository rc env =
        ([SetupAction.loadConfig, .mkdirAll rc.repoName, .chdir rc.repoName,
          .cloneBare (httpsURL rc.domain rc.org rc.repoName) ".bare",
          .writeGitDir ("gitdir: " ++ env.cwd ++ "/.bare"),
          .addRemote ".bare" (env.getAccount rc.domain)
            (httpsURL rc.domain (env.getAccount rc.domain) rc.repoName),
          .createHooks "origin" rc.branch, .worktreeAdd rc.branch false,
          .worktreeAdd "review" true], none)) ∧
    (rc.domain = "github.com" → env.getAccount rc.domain = rc.org →
      setupRepository rc env =
        ([SetupAction.loadConfig, .mkdirAll rc.repoName, .chdir rc.repoName,
          .cloneBare (httpsURL rc.domain rc.org rc.repoName) ".bare",
          .writeGitDir ("gitdir: " ++ env.cwd ++ "/.bare"),
          .createHooks "origin" rc.branch, .worktreeAdd rc.branch false,
          .worktreeAdd "review" true], none) ∧
      ∀ p n u, SetupAction.addRemote p n u ∉ (setupRepository rc env).1) := by
  obtain ⟨h1, h2, h3, h4, h5, h6, h7, h8, h9⟩ := hok
  refine ⟨?_, ?_, ?_⟩
  · intro hdom
    simp [setupRepository, RepoConfig.isGitHubEnterprise, setupGHERepo,
      createGitDirFile, finishSetup, bne_iff_ne, hacc, hdom,
      h1, h2, h3, h4, h5, h6, h7, h8, h9]
  · intro hdom hne
    rw [hdom] at hacc hne
    simp [setupRepository, RepoConfig.isGitHubEnterprise, setupGitHubRepo,
      createGitDirFile, finishSetup, bne_iff_ne, hacc, hdom, hne,
      h1, h2, h3, h4, h5, h6, h7, h8, h9]
  · intro hdom heq
    rw [hdom] at hacc heq
    rw [heq] at hacc
    have hgh : setupRepository rc env =
        ([SetupAction.loadConfig, .mkdirAll rc.repoName, .chdir rc.repoName,
          .cloneBare (httpsURL rc.domain rc.org rc.repoName) ".bare",
          .writeGitDir ("gitdir: " ++ env.cwd ++ "/.bare"),
          .createHooks "origin" rc.branch, .worktreeAdd rc.branch false,
          .worktreeAdd "review" true], none) := by
      simp [setupRepository, RepoConfig.isGitHubEnterprise, setupGitHubRepo,
        createGitDirFile, finishSetup, bne_iff_ne, hacc, hdom, heq,
        h1, h2, h3, h4, h5, h6, h7, h8, h9]
    refine ⟨hgh, ?_⟩
    rw [hgh]
    simp

/-- Witness for C6: enterprise host with account `dev` — the fork is cloned
and `upstream` points at the canonical repository. -/
theorem C6_setup_withAccount_witness :
    (SetupEnv.mk true (fun _ => "dev") true true true "/w/widgets" true true
        true true true).getAccount "enterprise.example.com" ≠ "" ∧
    "enterprise.example.com" ≠ "github.com" ∧
    setupRepository ⟨"enterprise.example.com", "acme", "widgets", "main"⟩
        (SetupEnv.mk true (fun _ => "dev") true true true "/w/widgets" true
          true true true true) =
      ([SetupAction.loadConfig, .mkdirAll "widgets", .chdir "widgets",
        .cloneBare "https://enterprise.example.com/dev/widgets.git" ".bare",
        .writeGitDir "gitdir: /w/widgets/.bare",
        .addRemote ".bare" "upstream" "https://enterprise.example.com/acme/widgets.git",
        .createHooks "upstream" "main", .worktreeAdd "main" false,
        .worktreeAdd "review" true], none) :=
  ⟨by decide, by decide, by
    have h := (C6_setup_withAccount
      ⟨"enterprise.example.com", "acme", "widgets", "main"⟩
      (SetupEnv.mk true (fun _ => "dev") true true true "/w/widgets" true
        true true true true) (by decide)
      ⟨rfl, rfl, rfl, rfl, rfl, rfl, rfl, rfl, rfl⟩).1 (by decide)
    simpa [httpsURL] using h⟩

/-- C7: a successful `add`, a successful targeted or interactive `switch`, a
`clear` that leaves the repository root, and a successful `setup` each emit
exactly one `WT_CHDIR:` signalling line in their combined output, while
failed invocations, a declined interactive selection, an empty worktree
list, and a `clear` that does not leave the root emit none. -/
theorem C7_wtchdir_emission (findRootOk : Bool) (gitRoot cwd0 : Path)
    (branch base : String) (env : WtEnv) (args : List String)
    (selectErr : Option String) (selected : Option Path) (leftRoot : Bool)
    (repoArg branchFlag : String) (senv : SetupEnv) :
    (chdirLineCount (addCmdRun findRootOk gitRoot branch base cwd0 env) =
      if (addCmdRun findRootOk gitRoot branch base cwd0 env).err = none
      then 1 else 0) ∧
    (chdirLineCount (setupCmdRun repoArg branchFlag senv) =
      if (setupCmdRun repoArg branchFlag senv).err = none then 1 else 0) ∧
    ((switchCmdRun findRootOk gitRoot args selectErr selected cwd0 env).err ≠ none →
      chdirLineCount
        (switchCmdRun findRootOk gitRoot args selectErr selected cwd0 env) = 0) ∧
    (∀ entries dir, findRootOk = true → env.readDir = some entries →
      getWorktreeDirs gitRoot entries ≠ [] →
      ((∃ target rest, args = target :: rest ∧
          (getWorktreeDirs gitRoot entries).find? (fun d => fbase d == target) =
            some dir) ∨
        (args = [] ∧ selectErr = none ∧ selected = some dir)) →
      env.chdirOk dir = true →
      chdirLineCount
        (switchCmdRun findRootOk gitRoot args selectErr selected cwd0 env) = 1) ∧
    (findRootOk = true → args = [] → selectErr = none → selected = none →
      chdirLineCount
        (switchCmdRun findRootOk gitRoot args selectErr selected cwd0 env) = 0) ∧
    (∀ entries, findRootOk = true → env.readDir = some entries →
      getWorktreeDirs gitRoot entries = [] →
      chdirLineCount
        (switchCmdRun findRootOk gitRoot args selectErr selected cwd0 env) = 0) ∧
    ((clearCmdRun findRootOk gitRoot env leftRoot cwd0).err ≠ none →
      chdirLineCount (clearCmdRun findRootOk gitRoot env leftRoot cwd0) = 0) ∧
    (∀ entries, findRootOk = true → env.readDir = some entries →
      getFilteredWorktrees gitRoot entries ≠ [] → env.chdirOk gitRoot = true →
      chdirLineCount (clearCmdRun findRootOk gitRoot env leftRoot cwd0) =
        if leftRoot then 1 else 0) ∧
    (∀ entries, findRootOk = true → env.readDir = some entries →
      getFilteredWorktrees gitRoot entries = [] →
      chdirLineCount (clearCmdRun findRootOk gitRoot env leftRoot cwd0) = 0) := by
  refine ⟨?_, ?_, ?_, ?_, ?_, ?_, ?_, ?_, ?_⟩
  · -- add
    by_cases hf : findRootOk = true
    · rcases hw : addWorktree gitRoot branch base cwd0 env with ⟨tr, cw, e⟩
      rcases e with _ | e <;>
        simp [addCmdRun, hf, hw, chdirLineCount, List.filter_cons,
          addHeader_not_marker, goStartsWith_marker_append]
    · simp [addCmdRun, hf, chdirLineCount]
  · -- setup
    rcases hp : parseRepoString repoArg branchFlag with _ | rc
    · simp [setupCmdRun, hp, chdirLineCount]
    · rcases hs : setupRepository rc senv with ⟨acts, r⟩
      rcases r with _ | e <;>
        simp [setupCmdRun, hp, hs, chdirLineCount, List.filter_cons,
          goStartsWith_marker_append]
  · -- switch failure
    intro herr
    by_cases hf : findRootOk = true
    · rcases hrd : env.readDir with _ | entries
      · simp [switchCmdRun, hf, hrd, chdirLineCount]
      · by_cases hemp : (getWorktreeDirs gitRoot entries).isEmpty = true
        · simp [switchCmdRun, hf, hrd, hemp] at herr
        · rcases hargs : args with _ | ⟨target, rest⟩
          · rcases hsel : selectErr with _ | e
            · rcases hseld : selected with _ | dir
              · simp [switchCmdRun, hf, hrd, hemp, hargs, hsel, hseld] at herr
              · by_cases hch : env.chdirOk dir = true
                · simp [switchCmdRun, switchFinish, switchWorktree, hf, hrd,
                    hemp, hargs, hsel, hseld, hch] at herr
                · simp [switchCmdRun, switchFinish, switchWorktree, hf, hrd,
                    hemp, hargs, hsel, hseld, hch, chdirLineCount]
            · simp [switchCmdRun, hf, hrd, hemp, hargs, hsel, chdirLineCount]
          · rcases hfind : (getWorktreeDirs gitRoot entries).find?
                (fun d => fbase d == target) with _ | dir
            · simp [switchCmdRun, hf, hrd, hemp, hargs, hfind, chdirLineCount]
            · by_cases hch : env.chdirOk dir = true
              · simp [switchCmdRun, switchFinish, switchWorktree, hf, hrd,
                  hemp, hargs, hfind, hch] at herr
              · simp [switchCmdRun, switchFinish, switchWorktree, hf, hrd,
                  hemp, hargs, hfind, hch, chdirLineCount]
    · simp [switchCmdRun, hf, chdirLineCount]
  · -- switch success
    intro entries dir hf hrd hemp hcase hch
    rcases hcase with ⟨target, rest, hargs, hfind⟩ | ⟨hargs, hsel, hseld⟩
    · subst hargs
      simp [switchCmdRun, switchFinish, switchWorktree, hf, hrd, hfind, hch,
        chdirLineCount, List.isEmpty_iff, hemp, List.filter_cons,
        switchedHeader_not_marker, goStartsWith_marker_append]
    · subst hargs
      simp [switchCmdRun, switchFinish, switchWorktree, hf, hrd, hsel, hseld,
        hch, chdirLineCount, List.isEmpty_iff, hemp, List.filter_cons,
        switchedHeader_not_marker, goStartsWith_marker_append]
  · -- switch declined
    intro hf hargs hsel hseld
    subst hargs
    rcases hrd : env.readDir with _ | entries
    · simp [switchCmdRun, hf, hrd, chdirLineCount]
    · by_cases hemp : (getWorktreeDirs gitRoot entries).isEmpty = true <;>
        simp [switchCmdRun, hf, hrd, hemp, hsel, hseld, chdirLineCount,
          List.filter_cons, noAvail_not_marker, noSelected_not_marker]
  · -- switch nothing available
    intro entries hf hrd hnil
    simp [switchCmdRun, hf, hrd, hnil, chdirLineCount, List.filter_cons,
      noAvail_not_marker]
  · -- clear failure
    intro herr
    by_cases hf : findRootOk = true
    · rcases hrd : env.readDir with _ | entries
      · simp [clearCmdRun, hf, hrd, chdirLineCount]
      · by_cases hemp : (getFilteredWorktrees gitRoot entries).isEmpty = true
        · simp [clearCmdRun, hf, hrd, hemp] at herr
        · by_cases hch : env.chdirOk gitRoot = true
          · cases leftRoot <;>
              simp [clearCmdRun, clearWorktreesChdir, clearWorktrees, hf, hrd,
                hemp, hch] at herr
          · simp [clearCmdRun, clearWorktreesChdir, clearWorktrees, hf, hrd,
              hemp, hch, chdirLineCount, List.filter_cons,
              removingHeader_not_marker]
    · simp [clearCmdRun, hf, chdirLineCount]
  · -- clear that (maybe) leaves the root
    intro entries hf hrd hne hch
    have hemp : (getFilteredWorktrees gitRoot entries).isEmpty = false := by
      simp [List.isEmpty_iff, hne]
    cases leftRoot <;>
      simp [clearCmdRun, clearWorktreesChdir, clearWorktrees, hf, hrd, hemp,
        hch, chdirLineCount, List.filter_cons, List.filter_append,
        removingHeader_not_marker, goStartsWith_marker_append]
  · -- clear with nothing to remove
    intro entries hf hrd hnil
    simp [clearCmdRun, hf, hrd, hnil, chdirLineCount, List.filter_cons,
      noClear_not_marker]

/-- Witness for C7: a concrete `clear` that leaves the repository root emits
exactly one signalling line. -/
theorem C7_wtchdir_emission_witness :
    getFilteredWorktrees ["repo"] [⟨"feature", true⟩] ≠ [] ∧
    (WtEnv.mk (fun _ => true) (some [⟨"feature", true⟩]) true (fun _ => true)
      (fun _ => true) false true).chdirOk ["repo"] = true ∧
    chdirLineCount (clearCmdRun true ["repo"]
      (WtEnv.mk (fun _ => true) (some [⟨"feature", true⟩]) true (fun _ => true)
        (fun _ => true) false true) true []) = 1 :=
  ⟨by decide, rfl,
    (C7_wtchdir_emission true ["repo"] [] "" ""
      (WtEnv.mk (fun _ => true) (some [⟨"feature", true⟩]) true (fun _ => true)
        (fun _ => true) false true) [] none none true "" ""
      (SetupEnv.mk true (fun _ => "") true true true "" true true true true
        true)).2.2.2.2.2.2.2.1 [⟨"feature", true⟩] rfl rfl (by decide) rfl⟩

/-- C8 counterexample: a captured output consisting of the single line
`WT_CHDIR:/tmp/x` with `/tmp/x` not an existing directory makes the wrapper
print no warning at all (and change no directory), contradicting the claim
that a warning is emitted. -/
theorem C8_wrapper_counterexample :
    chdirTarget ["WT_CHDIR:/tmp/x"] = "/tmp/x" ∧
    (WrapperEnv.mk (fun _ => false) (fun _ => true)).isDir "/tmp/x" = false ∧
    (wtWrapper ["WT_CHDIR:/tmp/x"]
      (WrapperEnv.mk (fun _ => false) (fun _ => true))).warned = false ∧
    (wtWrapper ["WT_CHDIR:/tmp/x"]
      (WrapperEnv.mk (fun _ => false) (fun _ => true))).movedTo = none ∧
    (wtWrapper ["WT_CHDIR:/tmp/x"]
      (WrapperEnv.mk (fun _ => false) (fun _ => true))).printed =
      ["WT_CHDIR:/tmp/x"] := by
  refine ⟨by decide, rfl, ?_, ?_, ?_⟩ <;>
    simp [wtWrapper, chdirTarget, stripChdir, goStartsWith, String.intercalate,
      String.intercalate.go, goStartsWithChars]

/-- C8 (amended): when the captured output has exactly one signalling line
`WT_CHDIR:<p>` with `p` nonempty, the wrapper changes to `p` if it exists as
a directory (warning only if the `cd` itself then fails), and if `p` does not
exist as a directory it performs no change and prints no warning; in every
case all captured output lines are still printed unmodified. -/
theorem C8_wrapper_cd (output : List String) (env : WrapperEnv) (p : String)
    (hone : output.filter (fun l => goStartsWith l "WT_CHDIR:") = ["WT_CHDIR:" ++ p])
    (hp : p ≠ "") :
    (env.isDir p = true → env.cdOk p = true →
      (wtWrapper output env).movedTo = some p ∧
      (wtWrapper output env).warned = false) ∧
    (env.isDir p = false →
      (wtWrapper output env).movedTo = none ∧
      (wtWrapper output env).warned = false) ∧
    (env.isDir p = true → env.cdOk p = false →
      (wtWrapper output env).movedTo = none ∧
      (wtWrapper output env).warned = true) ∧
    output <+: (wtWrapper output env).printed := by
  have htarget : chdirTarget output = p := by
    rw [chdirTarget, hone]
    simp [stripChdir_marker, String.intercalate, String.intercalate.go]
  refine ⟨?_, ?_, ?_, ?_⟩
  · intro hdir hcd
    simp [wtWrapper, htarget, hdir, hcd, bne_iff_ne, hp]
  · intro hdir
    simp [wtWrapper, htarget, hdir]
  · intro hdir hcd
    simp [wtWrapper, htarget, hdir, hcd, bne_iff_ne, hp]
  · by_cases hdir : env.isDir p = true <;>
      by_cases hcd : env.cdOk p = true <;>
        simp [wtWrapper, htarget, hdir, hcd, bne_iff_ne, hp, List.prefix_append]

/-- Witness for C8 (amended): one signalling line, existing directory, `cd`
succeeds — the wrapper moves there. -/
theorem C8_wrapper_cd_witness :
    (["done", "WT_CHDIR:/tmp/x"].filter (fun l => goStartsWith l "WT_CHDIR:") =
      ["WT_CHDIR:" ++ "/tmp/x"]) ∧
    ("/tmp/x" : String) ≠ "" ∧
    (wtWrapper ["done", "WT_CHDIR:/tmp/x"]
      (WrapperEnv.mk (fun _ => true) (fun _ => true))).movedTo = some "/tmp/x" :=
  ⟨by decide, by decide,
    ((C8_wrapper_cd ["done", "WT_CHDIR:/tmp/x"]
      (WrapperEnv.mk (fun _ => true) (fun _ => true)) "/tmp/x" (by decide)
      (by decide)).1 rfl rfl).1⟩

/-- C9: SSH credential resolution tries, in order, (1) the agent reached
through the environment socket — used only when the socket is set, connecting
succeeds and the agent lists at least one key, (2) the git library's own
agent auth, (3) the conventional key files `id_rsa`, `id_ed25519`, `id_ecdsa`
under `~/.ssh` in that order, taking the first that succeeds; when every
method fails, the dedicated no-SSH-authentication error is produced and an
SSH-style (`git@`) clone fails with it. -/
theorem C9_getSSHAuth_order (env : SSHEnv) (url : String) (cloneOk : Bool) :
    (agentProbeOk env = true ↔
      env.sshAuthSock ≠ "" ∧ env.dialOk = true ∧
        ∃ n, env.agentKeys = some n ∧ 0 < n) ∧
    (agentProbeOk env = true → env.agentAuthOk = true →
      getSSHAuth env = .ok .agentEnv) ∧
    (agentProbeOk env = false → env.agentAuthOk = true →
      getSSHAuth env = .ok .agentLib) ∧
    (∀ home, env.agentAuthOk = false → env.homeDir = some home →
      getSSHAuth env =
        (match (sshKeyPaths home).find?
            (fun p => env.statOk p && env.keyAuthOk p) with
          | some p => .ok (.keyFile p)
          | none => .error noAuthMsg)) ∧
    (∀ home, env.agentAuthOk = false → env.homeDir = some home →
      (sshKeyPaths home).find? (fun p => env.statOk p && env.keyAuthOk p) = none →
      goStartsWith url "git@" = true →
      cloneBare url env cloneOk =
        some ("failed to configure SSH authentication: " ++ noAuthMsg)) := by
  refine ⟨?_, ?_, ?_, ?_, ?_⟩
  · rw [agentProbeOk]
    rcases hk : env.agentKeys with _ | n <;>
      simp [bne_iff_ne, and_assoc, hk]
  · intro hp ha
    simp [getSSHAuth, hp, ha]
  · intro hp ha
    simp [getSSHAuth, hp, ha]
  · intro home ha hh
    simp [getSSHAuth, ha, hh, tryKeyFiles_eq_find]
    rcases (sshKeyPaths home).find? (fun p => env.statOk p && env.keyAuthOk p) with
      _ | p <;> simp
  · intro home ha hh hfind hurl
    have hauth : getSSHAuth env = .error noAuthMsg := by
      simp [getSSHAuth, ha, hh, tryKeyFiles_eq_find, hfind]
    simp [cloneBare, hurl, hauth]

/-- Witness for C9: agent auth unavailable and no key file loads — the
`git@` clone fails with the dedicated error. -/
theorem C9_getSSHAuth_order_witness :
    (SSHEnv.mk "" false none false (some "/home/u") (fun _ => false)
      (fun _ => false)).agentAuthOk = false ∧
    (SSHEnv.mk "" false none false (some "/home/u") (fun _ => false)
      (fun _ => false)).homeDir = some "/home/u" ∧
    (sshKeyPaths "/home/u").find?
      (fun p => (SSHEnv.mk "" false none false (some "/home/u") (fun _ => false)
        (fun _ => false)).statOk p &&
        (SSHEnv.mk "" false none false (some "/home/u") (fun _ => false)
          (fun _ => false)).keyAuthOk p) = none ∧
    goStartsWith "git@github.com:acme/widgets.git" "git@" = true ∧
    cloneBare "git@github.com:acme/widgets.git"
      (SSHEnv.mk "" false none false (some "/home/u") (fun _ => false)
        (fun _ => false)) true =
      some ("failed to configure SSH authentication: " ++ noAuthMsg) :=
  ⟨rfl, rfl, by decide, by decide,
    (C9_getSSHAuth_order
      (SSHEnv.mk "" false none false (some "/home/u") (fun _ => false)
        (fun _ => false)) "git@github.com:acme/widgets.git" true).2.2.2.2
      "/home/u" rfl rfl (by decide) (by decide)⟩

/-- C10: with the initial directory change succeeding, both `AddWorktree` and
`ClearWorktrees` make the repository root the process working directory as
their first action and never change directory again — so the final working
directory is the repository root even for invocations that subsequently
fail. -/
theorem C10_chdir_to_root_persists (gitRoot cwd0 : Path) (branch base : String)
    (env : WtEnv) (hc : env.chdirOk gitRoot = true) :
    ((addWorktree gitRoot branch base cwd0 env).cwd = gitRoot ∧
      (addWorktree gitRoot branch base cwd0 env).trace.head? =
        some (WtAction.chdir gitRoot) ∧
      ∀ a ∈ (addWorktree gitRoot branch base cwd0 env).trace.tail,
        a.isChdir = false) ∧
    ((clearWorktrees gitRoot cwd0 env).cwd = gitRoot ∧
      (clearWorktrees gitRoot cwd0 env).trace.head? =
        some (WtAction.chdir gitRoot) ∧
      ∀ a ∈ (clearWorktrees gitRoot cwd0 env).trace.tail,
        a.isChdir = false) := by
  constructor
  · by_cases hw : env.worktreeAddOk = true
    · by_cases hh : env.hookExists = true
      · by_cases hr : env.hookRunOk = true <;>
          simp [addWorktree, runPostAddHook, hc, hw, hh, hr, WtAction.isChdir]
      · simp [addWorktree, runPostAddHook, hc, hw, hh, WtAction.isChdir]
    · simp [addWorktree, hc, hw, WtAction.isChdir]
  · rcases hrd : env.readDir with _ | entries
    · simp [clearWorktrees, hc, hrd]
    · by_cases he : getFilteredWorktrees gitRoot entries = []
      · simp [clearWorktrees, hc, hrd, he]
      · have ht : (clearWorktrees gitRoot cwd0 env).trace =
            WtAction.chdir gitRoot ::
              clearLoop env (getFilteredWorktrees gitRoot entries) := by
          simp [clearWorktrees, hc, hrd, List.isEmpty_iff, he]
        refine ⟨?_, ?_, ?_⟩
        · simp [clearWorktrees, hc, hrd, List.isEmpty_iff, he]
        · rw [ht]
          rfl
        · rw [ht]
          exact clearLoop_no_chdir env (getFilteredWorktrees gitRoot entries)

/-- Witness for C10: a failing `add` (worktree-add step errors) still leaves
the process in the repository root. -/
theorem C10_chdir_to_root_persists_witness :
    (WtEnv.mk (fun _ => true) none false (fun _ => true) (fun _ => true)
        false true).chdirOk ["repo"] = true ∧
    (addWorktree ["repo"] "feature" "" ["elsewhere"]
      (WtEnv.mk (fun _ => true) none false (fun _ => true) (fun _ => true)
        false true)).cwd = ["repo"] ∧
    (addWorktree ["repo"] "feature" "" ["elsewhere"]
      (WtEnv.mk (fun _ => true) none false (fun _ => true) (fun _ => true)
        false true)).err ≠ none :=
  ⟨rfl,
    ((C10_chdir_to_root_persists ["repo"] ["elsewhere"] "feature" ""
      (WtEnv.mk (fun _ => true) none false (fun _ => true) (fun _ => true)
        false true) rfl).1).1,
    by decide⟩
